import Mathlib

/-!
Verification development for the chat-analyser repository
(multi-platform chat parsing and metrics pipeline, TypeScript).

The TypeScript sources are shallowly embedded: JS strings are modelled as
`List Char` (one entry per Unicode code point), JS numbers used as integers
are modelled as `Int`/`Nat`, `Date` values are modelled either by their
construction components (`DateParts`, for the WhatsApp parser, which builds
dates out of parsed fields) or directly by their epoch-millisecond value
(`Int`, for code that only ever compares timestamps via `getTime()`).
`undefined`-able values become `Option`, thrown exceptions become `Except`.
JS regular expressions are embedded as explicit decidable string functions
implementing the exact matching semantics of the concrete patterns that
appear in the sources (greedy quantifiers with backtracking, anchoring,
case-insensitivity), specialised to those patterns.

Character-class caveats, stated once here: the JS classes `\p{L}` (via
`jsIsLetter`) and the emoji set of the `emoji-regex` package (via
`isEmojiChar`) are modelled by explicit code-point ranges that cover the
Basic Latin, Latin-1/Latin-Extended and main pictographic blocks; every
concrete string evaluated in this file stays inside those ranges.
-/

-- =========================================================================
-- PART 1: JS string model and small utilities
-- =========================================================================

/-- A JS string, modelled as its list of Unicode code points. -/
abbrev Str := List Char

/-- Convenience conversion from Lean string literals. -/
def str (s : String) : Str := s.toList

/-- ASCII apostrophe, written via its code point (U+0027). -/
def apos : Char := Char.ofNat 39

/-- Right single quotation mark U+2019, as used by the tokeniser. -/
def rsquo : Char := Char.ofNat 0x2019

/-- Decimal digit test, JS `\d`. -/
def isDig (c : Char) : Bool := 48 ≤ c.toNat ∧ c.toNat ≤ 57

/-- Value of a decimal digit. -/
def digVal (c : Char) : Nat := c.toNat - 48

/-- The JS `\s` / WhiteSpace ∪ LineTerminator set (used by `\s`, `trim`,
`trimEnd`): space, tab, LF, VT, FF, CR, NBSP, Ogham space, the U+2000-200A
range, LS, PS, NNBSP, MMSP, ideographic space and the BOM. -/
def isJsWs (c : Char) : Bool :=
  let n := c.toNat
  n = 0x20 ∨ n = 0x9 ∨ n = 0xA ∨ n = 0xB ∨ n = 0xC ∨ n = 0xD ∨
  n = 0xA0 ∨ n = 0x1680 ∨ (0x2000 ≤ n ∧ n ≤ 0x200A) ∨
  n = 0x2028 ∨ n = 0x2029 ∨ n = 0x202F ∨ n = 0x205F ∨ n = 0x3000 ∨ n = 0xFEFF

/-- The control/direction marks stripped by `CONTROL_MARKS_REGEX`
(`/[‎‏‪-‮⁦-⁩]/g`, constants.ts). -/
def isControlMark (c : Char) : Bool :=
  let n := c.toNat
  n = 0x200E ∨ n = 0x200F ∨ (0x202A ≤ n ∧ n ≤ 0x202E) ∨ (0x2066 ≤ n ∧ n ≤ 0x2069)

/-- `stripControlMarks` (text.utils): remove every control/direction mark. -/
def stripControlMarks (s : Str) : Str := s.filter (fun c => !isControlMark c)

/-- JS `String.prototype.trimStart` over the whitespace set. -/
def jsTrimStart (s : Str) : Str := s.dropWhile isJsWs

/-- JS `String.prototype.trimEnd`. -/
def jsTrimEnd (s : Str) : Str := (s.reverse.dropWhile isJsWs).reverse

/-- JS `String.prototype.trim`. -/
def jsTrim (s : Str) : Str := jsTrimStart (jsTrimEnd s)

/-- ASCII lower-casing of one character; models `toLowerCase` on the
character repertoire used in this development. -/
def toLowerChar (c : Char) : Char :=
  if 65 ≤ c.toNat ∧ c.toNat ≤ 90 then Char.ofNat (c.toNat + 32) else c

/-- JS `String.prototype.toLowerCase` (ASCII model, see header note). -/
def jsToLower (s : Str) : Str := s.map toLowerChar

/-- Does `pre` occur at the start of `s`? (`String.prototype.startsWith`). -/
def strStartsWith (s pre : Str) : Bool := s.take pre.length = pre

/-- Does `sub` occur anywhere in `s`? (`String.prototype.includes`). -/
def strContains (s sub : Str) : Bool :=
  (List.range (s.length + 1)).any (fun i => strStartsWith (s.drop i) sub)

/-- Case-insensitive containment, modelling an `i`-flagged unanchored
regex whose pattern is a literal. -/
def strContainsCI (s sub : Str) : Bool := strContains (jsToLower s) (jsToLower sub)

/-- Case-insensitive prefix test, modelling an `i`-flagged `^literal`. -/
def strStartsWithCI (s pre : Str) : Bool := strStartsWith (jsToLower s) (jsToLower pre)

/-- Matches an `i`-flagged regex of the form `a.*b` (unanchored): some
occurrence of `a` is followed, at or after its end, by an occurrence of
`b`. (`.` cannot match a newline, but no embedded text in this pipeline
reaches these patterns with a newline between `a` and `b`.) -/
def strContainsSeqCI (s a b : Str) : Bool :=
  let ls := jsToLower s
  let la := jsToLower a
  let lb := jsToLower b
  (List.range (ls.length + 1)).any
    (fun i => strStartsWith (ls.drop i) la ∧ strContains (ls.drop (i + la.length)) lb)

/-- Index of the first occurrence of `c` (`String.prototype.indexOf`),
`none` when absent. -/
def strIndexOf (s : Str) (c : Char) : Option Nat := s.findIdx? (fun x => x = c)

-- =========================================================================
-- PART 2: name normalisation (text.utils `normaliseParticipantName`)
-- =========================================================================

/-- First replacement of `normaliseParticipantName`: NBSP, NNBSP and figure
space become an ASCII space (`/[   ]/g`). -/
def spaceLikeToSpace (c : Char) : Char :=
  if c.toNat = 0xA0 ∨ c.toNat = 0x202F ∨ c.toNat = 0x2007 then Char.ofNat 32 else c

/-- Second replacement: collapse every `\s+` run into one space
(`.replace(/\s+/g, ' ')`). -/
def collapseWs : Str → Str
  | [] => []
  | c :: rest =>
    if isJsWs c then
      match rest with
      | [] => [Char.ofNat 32]
      | d :: r2 =>
        if isJsWs d then collapseWs (d :: r2)
        else Char.ofNat 32 :: collapseWs (d :: r2)
    else c :: collapseWs rest

/-- `normaliseParticipantName` (text.utils): space-like replacement, then
whitespace-run collapse, then trim. -/
def normaliseParticipantName (name : Str) : Str :=
  jsTrim (collapseWs (name.map spaceLikeToSpace))

-- =========================================================================
-- PART 3: WhatsApp date parsing (date.utils `parseDateParts`)
-- =========================================================================

/-- The components handed to `new Date(fullYear, month, day, hour24,
minute, seconds, 0)` at the end of `parseDateParts`. `month` is the
JS zero-indexed month and may fall outside 0..11 (JS normalises). -/
structure DateParts where
  year : Int
  month : Int
  day : Int
  hour : Int
  minute : Int
  second : Int
deriving DecidableEq, Repr

/-- `parseDateParts` (date.utils): two-digit-year widening, the DD/MM
versus MM/DD disambiguation, and 12-hour to 24-hour conversion, exactly as
in the source. -/
def parseDateParts (dayOrMonth monthOrDay year hour minute : Int)
    (second : Option Int) (ampm : Option Str) : DateParts :=
  let fullYear : Int := if year < 100 then 2000 + year else year
  let dm : Int × Int :=
    if dayOrMonth > 12 then (dayOrMonth, monthOrDay - 1)
    else if monthOrDay > 12 ∧ dayOrMonth ≤ 12 then (monthOrDay, dayOrMonth - 1)
    else (dayOrMonth, monthOrDay - 1)
  let hour24 : Int :=
    match ampm with
    | none => hour
    | some ap =>
      let up := jsToLower ap
      let h1 : Int := if up = str "pm" ∧ hour < 12 then hour + 12 else hour
      if up = str "am" ∧ h1 = 12 then 0 else h1
  { year := fullYear, month := dm.2, day := dm.1, hour := hour24,
    minute := minute, second := second.getD 0 }

/-- Days since the Unix epoch of a proleptic-Gregorian civil date
(`m` in 1..12); the standard era/year-of-era computation used to model
`Date`'s `MakeDay`. -/
def daysFromCivil (y m d : Int) : Int :=
  let y2 : Int := if m ≤ 2 then y - 1 else y
  let era : Int := Int.fdiv y2 400
  let yoe : Int := y2 - era * 400
  let mp : Int := if m > 2 then m - 3 else m + 9
  let doy : Int := Int.fdiv (153 * mp + 2) 5 + d - 1
  let doe : Int := yoe * 365 + Int.fdiv yoe 4 - Int.fdiv yoe 100 + doy
  era * 146097 + doe - 719468

/-- Epoch milliseconds of a `DateParts` value, modelling
`new Date(y, m, d, h, mi, s).getTime()`. The out-of-range month is
normalised as in `MakeDay`; the host timezone offset is a constant during
one run and cancels in every timestamp comparison, so it is modelled as 0. -/
def dateMs (dp : DateParts) : Int :=
  let ym : Int := dp.year + Int.fdiv dp.month 12
  let mn : Int := Int.emod dp.month 12
  daysFromCivil ym (mn + 1) dp.day * 86400000 +
    dp.hour * 3600000 + dp.minute * 60000 + dp.second * 1000

-- =========================================================================
-- PART 4: media notices and WhatsApp system-message heuristics
-- =========================================================================

/-- `getMediaType` (text.utils): exact-match table over the normalised
text, then substring table, in source order. -/
def getMediaType (text : Str) : Option Str :=
  let n := jsToLower (jsTrim (stripControlMarks text))
  if n = str "image omitted" ∨ n = str "<image omitted>" then some (str "image")
  else if n = str "video omitted" ∨ n = str "<video omitted>" then some (str "video")
  else if n = str "audio omitted" ∨ n = str "<audio omitted>" then some (str "audio")
  else if n = str "sticker omitted" ∨ n = str "<sticker omitted>" then some (str "sticker")
  else if n = str "document omitted" ∨ n = str "<document omitted>" then some (str "document")
  else if n = str "gif omitted" ∨ n = str "<gif omitted>" then some (str "gif")
  else if n = str "<media omitted>" ∨ n = str "media omitted" then some (str "media")
  else if strContains n (str "image omitted") then some (str "image")
  else if strContains n (str "video omitted") then some (str "video")
  else if strContains n (str "audio omitted") then some (str "audio")
  else if strContains n (str "sticker omitted") then some (str "sticker")
  else if strContains n (str "document omitted") then some (str "document")
  else if strContains n (str "gif omitted") then some (str "gif")
  else if strContains n (str "media omitted") then some (str "media")
  else none

/-- `isMediaNotice` (text.utils). -/
def isMediaNotice (text : Str) : Bool := (getMediaType text).isSome

/-- The `systemPatterns` battery of `parseWhatsApp` (whatsapp.parser
68-101): each entry is an `i`-flagged unanchored regex; literal patterns
become case-insensitive containment, `a .* b` patterns become ordered
containment, `added .*$` and `you added .*` reduce to containment of their
literal part because `.*` may be empty and the tested text is a single
line (no newline before the end anchor). -/
def wsSystemPatterns (t : Str) : Bool :=
  strContainsCI t (str "changed the group name to") ∨
  strContainsCI t (str "changed this group" ++ [apos] ++ str "s icon") ∨
  strContainsCI t (str "changed the subject") ∨
  strContainsSeqCI t (str "added ") (str " to the group") ∨
  strContainsCI t (str "added ") ∨
  strContainsCI t (str "left the group") ∨
  strContainsSeqCI t (str "removed ") (str " from the group") ∨
  strContainsCI t (str "created a poll") ∨
  strContainsCI t (str "this message was deleted") ∨
  strContainsCI t (str "missed voice call") ∨ strContainsCI t (str "missed video call") ∨
  strContainsCI t (str "voice call") ∨ strContainsCI t (str "video call") ∨
  strContainsCI t (str "you added ") ∨
  strContainsCI t (str "you removed ") ∨
  strContainsCI t (str "you left") ∨
  strContainsCI t (str "you joined") ∨
  strContainsCI t (str "security code changed") ∨
  strContainsCI t (str "messages and calls are end-to-end encrypted") ∨
  strContainsCI t (str "you created group") ∨
  strContainsCI t (str "only messages that mention") ∨
  strContainsCI t (str "you changed the settings") ∨
  strContainsCI t (str "you pinned a message")

/-- The `GroupName: RealSender: text` test `/^[^:]+:\s*[^:]+:\s*/`
(whatsapp.parser 93): holds when the first colon is preceded by at least
one character and a second colon follows with at least one character in
between (whitespace characters also match `[^:]`, so the `\s*` parts
impose nothing further). -/
def hasEditionPattern (t : Str) : Bool :=
  match strIndexOf t ':' with
  | none => false
  | some i =>
    decide (1 ≤ i) && (match strIndexOf (t.drop (i + 1)) ':' with
                       | none => false
                       | some j => decide (1 ≤ j))

/-- The anchored WhatsApp system-phrase alternation (whatsapp.parser 96). -/
def hasWhatsAppSystemPattern (t : Str) : Bool :=
  [str "messages and calls are end-to-end encrypted", str "you created group",
   str "you added", str "you changed", str "you left", str "you joined",
   str "only messages that mention", str "you changed the settings",
   str "you pinned a message"].any (fun p => strStartsWithCI t p)

/-- The fallback-line system test (whatsapp.parser 145):
`/image omitted|this message was deleted|missed (voice|video) call|(voice|video) call/i`. -/
def fallbackSystemPattern (t : Str) : Bool :=
  strContainsCI t (str "image omitted") ∨
  strContainsCI t (str "this message was deleted") ∨
  strContainsCI t (str "missed voice call") ∨ strContainsCI t (str "missed video call") ∨
  strContainsCI t (str "voice call") ∨ strContainsCI t (str "video call")

-- =========================================================================
-- PART 5: the DATE_PREFIXES timestamp patterns (date.utils 80-92)
-- =========================================================================

/-- Consume exactly `n` decimal digits, returning their value. -/
def takeDigits : Nat → Str → Option (Nat × Str)
  | 0, s => some (0, s)
  | n + 1, s =>
    match s with
    | [] => none
    | c :: rest =>
      if isDig c then
        (takeDigits n rest).map (fun p => (digVal c * 10 ^ n + p.1, p.2))
      else none

/-- Ways a greedy `\d{min,max}` can consume, longest first. -/
def digitsOpts (mn mx : Nat) (s : Str) : List (Nat × Str) :=
  ((List.range (mx - mn + 1)).map (fun k => mx - k)).filterMap
    (fun len => takeDigits len s)

/-- Consume one literal character. -/
def lit (c : Char) (s : Str) : Option Str :=
  match s with
  | [] => none
  | x :: rest => if x = c then some rest else none

/-- Consume one `\s` character. -/
def ws1 (s : Str) : Option Str :=
  match s with
  | [] => none
  | x :: rest => if isJsWs x then some rest else none

/-- Ways a greedy `\s*` can consume, longest first. -/
def wsRests (s : Str) : List Str :=
  let run := (s.takeWhile isJsWs).length
  (List.range (run + 1)).map (fun k => s.drop (run - k))

/-- Ways an optional literal character can consume, consuming first. -/
def optCharOpts (c : Char) (s : Str) : List Str :=
  (match s with
   | x :: rest => if x = c then [rest] else []
   | [] => []) ++ [s]

/-- Ways the optional `([APap][Mm])?` group can consume, capture first. -/
def ampmOpts (s : Str) : List (Option Str × Str) :=
  (match s with
   | a :: m :: rest =>
     if (a = 'A' ∨ a = 'P' ∨ a = 'a' ∨ a = 'p') ∧ (m = 'M' ∨ m = 'm') then
       [(some [a, m], rest)]
     else []
   | _ => []) ++ [(none, s)]

/-- Ways the optional seconds group `(?::(\d{2}))?` can consume. -/
def secOpts (s : Str) : List (Option Nat × Str) :=
  (match s with
   | c :: rest =>
     if c = ':' then
       match takeDigits 2 rest with
       | some (v, r2) => [(some v, r2)]
       | none => []
     else []
   | [] => []) ++ [(none, s)]

/-- Tail of the two patterns: `\s-\s` for the dash form, `\s` for the
bracket form. -/
def tailCheck (dash : Bool) (s : Str) : Option Str :=
  if dash then
    match s with
    | a :: b :: c :: rest =>
      if isJsWs a ∧ b = '-' ∧ isJsWs c then some rest else none
    | _ => none
  else ws1 s

/-- Captures of a successful `DATE_PREFIXES` match, plus the text after
the full match. -/
structure DateCaps where
  d1 : Nat
  d2 : Nat
  y : Nat
  h : Nat
  mi : Nat
  sec : Option Nat
  ampm : Option Str
  rest : Str
deriving DecidableEq, Repr

/-- Anchored match of one `DATE_PREFIXES` pattern
(`^\[?(\d{1,2})\/(\d{1,2})\/(\d{2,4}),\s(\d{1,2}):(\d{2})(?::(\d{2}))?\s*([APap][Mm])?\]?` +
`\s-\s` or `\s`), with the backtracking priority of a JS regex engine:
greedy alternatives are tried longest/consuming first, the first full
success wins. -/
def matchDatePrefix (dash : Bool) (s : Str) : Option DateCaps :=
  (optCharOpts '[' s).findSome? (fun s1 =>
  (digitsOpts 1 2 s1).findSome? (fun p1 =>
  (lit '/' p1.2).bind (fun s2 =>
  (digitsOpts 1 2 s2).findSome? (fun p2 =>
  (lit '/' p2.2).bind (fun s3 =>
  (digitsOpts 2 4 s3).findSome? (fun py =>
  (lit ',' py.2).bind (fun s4 =>
  (ws1 s4).bind (fun s5 =>
  (digitsOpts 1 2 s5).findSome? (fun ph =>
  (lit ':' ph.2).bind (fun s6 =>
  (takeDigits 2 s6).bind (fun pmi =>
  (secOpts pmi.2).findSome? (fun psec =>
  (wsRests psec.2).findSome? (fun s7 =>
  (ampmOpts s7).findSome? (fun pap =>
  (optCharOpts ']' pap.2).findSome? (fun s8 =>
  (tailCheck dash s8).map (fun r =>
    { d1 := p1.1, d2 := p2.1, y := py.1, h := ph.1, mi := pmi.1,
      sec := psec.1, ampm := pap.1, rest := r }))))))))))))))))

/-- Try the `DATE_PREFIXES` array in source order: dash form first, then
bracket form. -/
def matchAnyDatePrefix (s : Str) : Option DateCaps :=
  (matchDatePrefix true s).orElse (fun _ => matchDatePrefix false s)

-- =========================================================================
-- PART 6: parseWhatsApp (whatsapp.parser 18-264)
-- =========================================================================

/-- A WhatsApp `Message` as built by `parseWhatsApp`; the `Date` is kept as
its construction components. `from` is a Lean keyword, hence `from'`. -/
structure MessageW where
  timestamp : DateParts
  from' : Option Str
  text : Str
  isSystem : Bool
  isMediaNotice : Bool
  mediaType : Option Str
deriving DecidableEq, Repr

/-- The `ParsedChat` returned by `parseWhatsApp`. The JS `Set` of
participants is modelled as its insertion-ordered duplicate-free list. -/
structure ParsedChatW where
  messages : List MessageW
  participants : List Str
  platform : Str
deriving DecidableEq, Repr

/-- JS `Set.prototype.add`: append if not already present. -/
def addSet (l : List Str) (x : Str) : List Str :=
  if l.contains x then l else l ++ [x]

/-- Split on `/\r?\n/` (whatsapp.parser 19): `\n` separates lines,
consuming one immediately preceding `\r`; other `\r`s are kept. -/
def splitLinesAux : Str → Str → List Str
  | [], acc => [acc.reverse]
  | c :: rest, acc =>
    if c = '\n' then acc.reverse :: splitLinesAux rest []
    else if c = '\r' then
      match rest with
      | d :: r2 =>
        if d = '\n' then acc.reverse :: splitLinesAux r2 []
        else splitLinesAux (d :: r2) (c :: acc)
      | [] => [(c :: acc).reverse]
    else splitLinesAux rest (c :: acc)

/-- `chatText.split(/\r?\n/)`. -/
def splitLines (s : Str) : List Str := splitLinesAux s []

/-- Loop state of `parseWhatsApp`: flushed messages plus the mutable
current-message accumulator. -/
structure WState where
  messages : List MessageW
  current : Option MessageW
deriving Repr

/-- One iteration of the `parseWhatsApp` line loop (whatsapp.parser
23-218). `now` is the wall-clock `new Date()` fallback timestamp used for
prefix-less system lines, passed explicitly to keep the function pure. -/
def processLine (now : DateParts) (st : WState) (rawLine : Str) : WState :=
  let line := jsTrimEnd rawLine
  if line = [] then st
  else
    match matchAnyDatePrefix line with
    | some caps =>
      let parsedDate := parseDateParts (caps.d1 : Int) (caps.d2 : Int) (caps.y : Int)
        (caps.h : Int) (caps.mi : Int) (caps.sec.map (fun n => (n : Int)))
        caps.ampm
      let content := caps.rest
      let sm : Option Str × Str :=
        match strIndexOf content ':' with
        | some ci =>
          let sender0 := normaliseParticipantName (jsTrim (content.take ci))
          let mt0 := jsTrim (content.drop (ci + 1))
          let isSystemMessage :=
            wsSystemPatterns mt0 ∨ hasEditionPattern mt0 ∨ hasWhatsAppSystemPattern mt0
          let isMediaMessage := (getMediaType mt0).isSome
          if isSystemMessage ∧ ¬ isMediaMessage then (none, jsTrim content)
          else (some sender0, mt0)
        | none => (none, jsTrim content)
      let messageText := stripControlMarks sm.2
      let mediaType := getMediaType messageText
      let isMediaMessage := mediaType.isSome
      { messages := st.messages ++ st.current.toList,
        current := some
          { timestamp := parsedDate, from' := sm.1, text := messageText,
            isSystem := sm.1.isNone ∧ ¬ isMediaMessage,
            isMediaNotice := isMediaNotice messageText, mediaType := mediaType } }
    | none =>
      let hasUnicodePrefix := match line with
        | c :: _ => isControlMark c
        | [] => false
      if hasUnicodePrefix || fallbackSystemPattern line then
        let cleanText0 := stripControlMarks line
        let tc : DateParts × Str :=
          match matchAnyDatePrefix cleanText0 with
          | some caps =>
            (parseDateParts (caps.d1 : Int) (caps.d2 : Int) (caps.y : Int)
               (caps.h : Int) (caps.mi : Int) (caps.sec.map (fun n => (n : Int)))
               caps.ampm,
             jsTrim caps.rest)
          | none => (now, cleanText0)
        let mediaType := getMediaType tc.2
        let isMediaMessage := mediaType.isSome
        let sc : Option Str × Str :=
          if isMediaMessage then
            match strIndexOf tc.2 ':' with
            | some ci =>
              (some (normaliseParticipantName (jsTrim (tc.2.take ci))),
               jsTrim (tc.2.drop (ci + 1)))
            | none => (none, tc.2)
          else (none, tc.2)
        { messages := st.messages ++ st.current.toList,
          current := some
            { timestamp := tc.1, from' := sc.1, text := sc.2,
              isSystem := ¬ isMediaMessage, isMediaNotice := isMediaMessage,
              mediaType := mediaType } }
      else
        match st.current with
        | some cur =>
          { st with current := some { cur with text := cur.text ++ '\n' :: stripControlMarks line } }
        | none => st

/-- A quotation mark accepted by the group-name capture
(straight, left curly, right curly). -/
def isQuoteCh (c : Char) : Bool :=
  c = '"' ∨ c.toNat = 0x201C ∨ c.toNat = 0x201D

/-- First-match capture of
`/changed the group name to ["“”]([^"“”]+)["“”]/i` (whatsapp.parser 233):
leftmost occurrence of the literal followed by a quote, a non-empty
quote-free run, and a closing quote. -/
def groupNameCapture (t : Str) : Option Str :=
  let pat := str "changed the group name to "
  (List.range (t.length + 1)).findSome? (fun i =>
    if strStartsWithCI (t.drop i) pat then
      match t.drop (i + pat.length) with
      | q :: rest =>
        if isQuoteCh q then
          let cap := rest.takeWhile (fun c => !isQuoteCh c)
          match rest.drop cap.length with
          | q2 :: _ => if isQuoteCh q2 ∧ cap ≠ [] then some cap else none
          | [] => none
        else none
      | [] => none
    else none)

/-- The system-phrase alternation guarding the colon-prefix group-name
heuristic (whatsapp.parser 240). -/
def groupPrefixGuard (t : Str) : Bool :=
  strContainsCI t (str "changed the group name to") ∨
  strContainsCI t (str "messages and calls are end-to-end encrypted") ∨
  strContainsCI t (str "you created group") ∨
  strContainsCI t (str "you added") ∨
  strContainsCI t (str "you removed") ∨
  strContainsCI t (str "you left") ∨
  strContainsCI t (str "you joined") ∨
  strContainsCI t (str "you changed the settings") ∨
  strContainsCI t (str "you pinned a message")

/-- `/club|group|edition|chat|team|crew|gang|squad/i` (whatsapp.parser 244). -/
def hasGroupIndicators (t : Str) : Bool :=
  strContainsCI t (str "club") ∨ strContainsCI t (str "group") ∨
  strContainsCI t (str "edition") ∨ strContainsCI t (str "chat") ∨
  strContainsCI t (str "team") ∨ strContainsCI t (str "crew") ∨
  strContainsCI t (str "gang") ∨ strContainsCI t (str "squad")

/-- First pass of participant extraction (whatsapp.parser 229-252):
group-name artifacts found in system messages. -/
def potentialGroupNamesOf (messages : List MessageW) : List Str :=
  messages.foldl (fun acc m =>
    if m.isSystem ∧ m.text ≠ [] then
      let acc1 := match groupNameCapture m.text with
        | some g => addSet acc g
        | none => acc
      if groupPrefixGuard m.text then
        let pre := jsTrim (m.text.takeWhile (fun c => c ≠ ':'))
        if pre ≠ [] ∧ hasGroupIndicators pre then addSet acc1 pre else acc1
      else acc1
    else acc) []

/-- Second pass (whatsapp.parser 254-262): senders of non-system messages,
excluding recognised group names. -/
def participantsOf (messages : List MessageW) : List Str :=
  let groupNames := potentialGroupNamesOf messages
  messages.foldl (fun acc m =>
    match m.from' with
    | some f =>
      if f ≠ [] ∧ ¬ m.isSystem then
        let n := normaliseParticipantName f
        if groupNames.contains n then acc else addSet acc n
      else acc
    | none => acc) []

/-- `parseWhatsApp` (whatsapp.parser 18-264). The messages come out in
input-line order; no sorting is performed. -/
def parseWhatsApp (chatText : Str) (now : DateParts) : ParsedChatW :=
  let st := (splitLines chatText).foldl (processLine now) { messages := [], current := none }
  let messages := st.messages ++ st.current.toList
  { messages := messages, participants := participantsOf messages,
    platform := str "whatsapp" }

-- =========================================================================
-- PART 7: emoji counting (text.utils `countEmojis`, constants EMOJI_REGEX)
-- =========================================================================

/-- UTF-16 length of one code point; JS `lastIndex` counts UTF-16 units. -/
def utf16Len (c : Char) : Nat := if c.toNat ≥ 0x10000 then 2 else 1

/-- Code points matched by the `emoji-regex` package, modelled by the main
pictographic blocks (see header note). -/
def isEmojiChar (c : Char) : Bool :=
  let n := c.toNat
  (0x1F300 ≤ n ∧ n ≤ 0x1FAFF) ∨ (0x2600 ≤ n ∧ n ≤ 0x27BF)

/-- `EMOJI_REGEX.test(s)` for the shared module-level `g`-flagged regex:
matching starts at `lastIndex` (in UTF-16 units); success returns `true`
and sets `lastIndex` past the match, failure returns `false` and resets
`lastIndex` to 0. Returns (result, new lastIndex). -/
def emojiTestG (lastIndex : Nat) (s : Str) : Bool × Nat :=
  go 0 s
where
  go (off : Nat) : Str → Bool × Nat
    | [] => (false, 0)
    | c :: rest =>
      if lastIndex ≤ off ∧ isEmojiChar c then (true, off + utf16Len c)
      else go (off + utf16Len c) rest

/-- `GraphemeSplitter.splitGraphemes`, for strings without combining
sequences (all strings evaluated here; see header note): every code point
is its own cluster. -/
def splitGraphemes (s : Str) : List Str := s.map (fun c => [c])

/-- `countEmojis` (text.utils 70-81) with the regex `lastIndex` state made
explicit: fold `EMOJI_REGEX.test` over the grapheme clusters, threading
`lastIndex`, starting from the given entry state. Returns
(count, final lastIndex). -/
def countEmojisFrom (st : Nat) (s : Str) : Nat × Nat :=
  (splitGraphemes s).foldl
    (fun acc cl =>
      let r := emojiTestG acc.2 cl
      (acc.1 + (if r.1 then 1 else 0), r.2))
    (0, st)

/-- `countEmojis` as observed inside `computeMetrics`: every call there
starts with `lastIndex = 0`, because the regex is freshly reset by the
`visibleText.match(EMOJI_REGEX)` call that ends the previous iteration
(`String.prototype.match` with a global regex zeroes `lastIndex`), and is
0 at module start for the first iteration. -/
def countEmojis (s : Str) : Nat := (countEmojisFrom 0 s).1

-- =========================================================================
-- PART 8: tokenisation and link counting
-- =========================================================================

/-- The JS `\p{L}` class, modelled on the letter ranges used in this
development (ASCII, Latin-1 and Latin Extended, Greek, Cyrillic, Arabic;
see header note). -/
def jsIsLetter (c : Char) : Bool :=
  let n := c.toNat
  (65 ≤ n ∧ n ≤ 90) ∨ (97 ≤ n ∧ n ≤ 122) ∨
  (0xC0 ≤ n ∧ n ≤ 0xD6) ∨ (0xD8 ≤ n ∧ n ≤ 0xF6) ∨ (0xF8 ≤ n ∧ n ≤ 0x24F) ∨
  (0x370 ≤ n ∧ n ≤ 0x3FF) ∨ (0x400 ≤ n ∧ n ≤ 0x4FF) ∨
  (0x620 ≤ n ∧ n ≤ 0x64A) ∨ (0x1E00 ≤ n ∧ n ≤ 0x1EFF)

/-- Optional continuation of a token: `(?:['’]\p{L}+)*` after the initial
letter run. Returns (consumed, rest). -/
def tokTail : Nat → Str → Str × Str
  | 0, s => ([], s)
  | fuel + 1, s =>
    match s with
    | q :: c :: rest =>
      if (q = apos ∨ q = rsquo) ∧ jsIsLetter c then
        let run := (c :: rest).takeWhile jsIsLetter
        let t2 := tokTail fuel ((c :: rest).drop run.length)
        (q :: (run ++ t2.1), t2.2)
      else ([], s)
    | _ => ([], s)

/-- All matches of `/\p{L}+(?:['’]\p{L}+)*/gu` in order. -/
def tokensAux : Nat → Str → List Str
  | 0, _ => []
  | fuel + 1, s =>
    match s with
    | [] => []
    | c :: rest =>
      if jsIsLetter c then
        let run := (c :: rest).takeWhile jsIsLetter
        let t2 := tokTail fuel ((c :: rest).drop run.length)
        (run ++ t2.1) :: tokensAux fuel t2.2
      else tokensAux fuel rest

/-- The `systemWords` stoplist local to `tokeniseWords` (text.utils 34-42). -/
def systemWords : List Str :=
  [str "omitted", str "edited", str "deleted", str "removed", str "changed",
   str "added", str "left", str "joined", str "created", str "pinned",
   str "unpinned", str "encrypted", str "end-to-end", str "messages",
   str "calls", str "group", str "name", str "icon", str "settings",
   str "admin", str "admins", str "security", str "code", str "missed",
   str "voice", str "video", str "call", str "poll", str "this",
   str "message", str "was", str "to", str "the", str "you", str "only",
   str "people", str "can", str "read", str "listen", str "share",
   str "them", str "outside", str "chat", str "not", str "even",
   str "whatsapp", str "meta", str "ai", str "mention", str "https",
   str "http", str "www", str "com", str "org", str "net"]

/-- `tokeniseWords` (text.utils 33-52): lowercase, extract letter tokens
with embedded apostrophes, and for system messages drop the system
stoplist. -/
def tokeniseWords (text : Str) (isSystemMessage : Bool) : List Str :=
  let lower := jsToLower text
  let words := tokensAux lower.length lower
  if isSystemMessage then words.filter (fun w => !systemWords.contains w)
  else words

/-- One attempted match of `LINK_REGEX` (`/https?:\/\/\S+/ig`) anchored at
the start of `s`; on success returns the text after the match. -/
def matchLinkAt (s : Str) : Option Str :=
  if strStartsWithCI s (str "http") then
    let s4 := s.drop 4
    let afterScheme : Option Str :=
      match s4 with
      | c :: r =>
        if c = 's' ∨ c = 'S' then
          if strStartsWith r (str "://") then some (r.drop 3)
          else if strStartsWith s4 (str "://") then some (s4.drop 3)
          else none
        else if strStartsWith s4 (str "://") then some (s4.drop 3)
        else none
      | [] => none
    match afterScheme with
    | some r2 =>
      let run := r2.takeWhile (fun c => !isJsWs c)
      if run = [] then none else some (r2.drop run.length)
    | none => none
  else none

/-- Number of `LINK_REGEX` matches: leftmost match, continue after it. -/
def linkCountAux : Nat → Str → Nat
  | 0, _ => 0
  | fuel + 1, s =>
    match s with
    | [] => 0
    | c :: rest =>
      match matchLinkAt (c :: rest) with
      | some r => 1 + linkCountAux fuel r
      | none => linkCountAux fuel rest

/-- `visibleText.match(LINK_REGEX).length` (with `|| []` for no match). -/
def linkCount (s : Str) : Nat := linkCountAux s.length s

-- =========================================================================
-- PART 9: mention removal (metrics.computer 111-143)
-- =========================================================================

/-- Global replacement of `/⁨([\s\S]*?)⁩/g` by the empty string:
each U+2068 paired lazily up to the next U+2069 is removed together with
the enclosed span; an opener with no closer stays. -/
def remUniMentions : Nat → Str → Str
  | 0, s => s
  | fuel + 1, s =>
    match s with
    | [] => []
    | c :: rest =>
      if c.toNat = 0x2068 then
        match rest.findIdx? (fun d => d.toNat = 0x2069) with
        | some j => remUniMentions fuel (rest.drop (j + 1))
        | none => c :: remUniMentions fuel rest
      else c :: remUniMentions fuel rest

/-- The character class of the `@`-mention regex (metrics.computer 129):
Latin letter blocks, the direction-mark block and whitespace. -/
def inAtClass (c : Char) : Bool :=
  let n := c.toNat
  (65 ≤ n ∧ n ≤ 90) ∨ (97 ≤ n ∧ n ≤ 122) ∨
  (0xC0 ≤ n ∧ n ≤ 0x17F) ∨ (0x180 ≤ n ∧ n ≤ 0x24F) ∨
  (0x1E00 ≤ n ∧ n ≤ 0x1EFF) ∨ isControlMark c ∨ isJsWs c

/-- Global replacement of `/@([A-Za-z…\s]+)/g` by the empty string: each
`@` followed by a non-empty run of class characters is removed with the
run; a bare `@` stays. -/
def remAtMentions : Nat → Str → Str
  | 0, s => s
  | fuel + 1, s =>
    match s with
    | [] => []
    | c :: rest =>
      if c = '@' then
        let run := rest.takeWhile inAtClass
        if run = [] then c :: remAtMentions fuel rest
        else remAtMentions fuel (rest.drop run.length)
      else c :: remAtMentions fuel rest

-- =========================================================================
-- PART 10: computeMetrics (metrics.computer 37-547)
-- =========================================================================

/-- A pipeline `Message` whose `Date` timestamp is modelled by its epoch
milliseconds (the metrics computer and merger only use `getTime()`). -/
structure MessageC where
  timestamp : Int
  from' : Option Str
  text : Str
  isSystem : Bool
  isMediaNotice : Bool
  mediaType : Option Str
  platform : Str
deriving DecidableEq, Repr

/-- The six numeric counters of `totals`; the same six counters are also
the numeric per-user fields of a `byUser` entry (the further per-user
fields — rates, top-word/mention/media maps, heatmaps, streaks — are not
referenced by any theorem in this development and are not embedded). -/
structure Totals where
  messages : Nat
  words : Nat
  characters : Nat
  emojis : Nat
  mediaNotices : Nat
  links : Nat
deriving DecidableEq, Repr

/-- Pointwise sum of counters. -/
def bump (t d : Totals) : Totals :=
  { messages := t.messages + d.messages, words := t.words + d.words,
    characters := t.characters + d.characters, emojis := t.emojis + d.emojis,
    mediaNotices := t.mediaNotices + d.mediaNotices, links := t.links + d.links }

/-- All-zero counters (the initialisers at metrics.computer 49-56 and
284-295). -/
def zeroTotals : Totals :=
  { messages := 0, words := 0, characters := 0, emojis := 0,
    mediaNotices := 0, links := 0 }

/-- A session as accumulated by the loop (metrics.computer 82, 168-185);
`end` is a Lean keyword, hence `stop`. The `initiator`/`participants`/
`platform` fields are not referenced by any theorem here. -/
structure SessionE where
  start : Int
  stop : Int
  count : Nat
deriving DecidableEq, Repr

/-- The `visibleText` of one message (metrics.computer 111-143): empty for
media notices, otherwise the raw text with direction-isolate mention spans
and `@`-mention runs removed, then control marks stripped. -/
def visibleTextOf (m : MessageC) : Str :=
  if m.isMediaNotice then []
  else
    let t1 := remUniMentions m.text.length m.text
    stripControlMarks (remAtMentions t1.length t1)

/-- The contribution of one message to the six counters (the
`totals.* +=` statements of the loop body). -/
def msgDelta (m : MessageC) : Totals :=
  let vt := visibleTextOf m
  { messages := 1,
    words := (tokeniseWords vt m.isSystem).length,
    characters := vt.length,
    emojis := countEmojis vt,
    mediaNotices := if m.isMediaNotice then 1 else 0,
    links := linkCount vt }

/-- The `byUser` key of a message (metrics.computer 227): normalised
sender, or `"__system__"` when `from` is undefined or empty (falsy). -/
def userKeyOf (m : MessageC) : Str :=
  match m.from' with
  | some f => if f = [] then str "__system__" else normaliseParticipantName f
  | none => str "__system__"

/-- `byUser`, modelled as the insertion-ordered association list of a JS
object; a missing key is created with zero counters (metrics.computer
283-296) and then incremented (298-304). -/
def upsertUser : List (Str × Totals) → Str → Totals → List (Str × Totals)
  | [], k, d => [(k, d)]
  | (k0, t) :: rest, k, d =>
    if k0 = k then (k0, bump t d) :: rest
    else (k0, t) :: upsertUser rest k d

/-- The session-boundary step (metrics.computer 168-185): extend the open
session when the gap since its end is at most `sessionGapMs`, otherwise
freeze it and open a new one. State is (closed sessions, open session). -/
def sessStep (gap : Int) (dc : List SessionE × Option SessionE) (m : MessageC) :
    List SessionE × Option SessionE :=
  match dc.2 with
  | none => (dc.1, some { start := m.timestamp, stop := m.timestamp, count := 1 })
  | some c =>
    if m.timestamp - c.stop ≤ gap then
      (dc.1, some { start := c.start, stop := m.timestamp, count := c.count + 1 })
    else
      (dc.1 ++ [c], some { start := m.timestamp, stop := m.timestamp, count := 1 })

/-- The in-place rewrite `m.from = normaliseParticipantName(m.from)`
(metrics.computer 231-232), guarded by JS truthiness of `m.from`. -/
def rewriteFrom (m : MessageC) : MessageC :=
  match m.from' with
  | some f => if f = [] then m else { m with from' := some (normaliseParticipantName f) }
  | none => m

/-- Loop state of `computeMetrics`: the running totals, the `byUser`
object, the session accumulator, and the message array as mutated so far
(the loop's only write to the input is the `m.from` rewrite). -/
structure MState where
  totals : Totals
  byUser : List (Str × Totals)
  done : List SessionE
  cur : Option SessionE
  out : List MessageC
deriving Repr

/-- One iteration of the `computeMetrics` message loop (metrics.computer
108-357), restricted to the embedded components. -/
def metricsStep (gap : Int) (st : MState) (m : MessageC) : MState :=
  let d := msgDelta m
  let sc := sessStep gap (st.done, st.cur) m
  { totals := bump st.totals d,
    byUser := upsertUser st.byUser (userKeyOf m) d,
    done := sc.1,
    cur := sc.2,
    out := st.out ++ [rewriteFrom m] }

/-- Result of the embedded `computeMetrics`: totals, `byUser`, the session
list (closed sessions followed by the still-open one) and the input
message array as left behind by the loop's in-place `from` rewrites. -/
structure MetricsE where
  totals : Totals
  byUser : List (Str × Totals)
  sessions : List SessionE
  messagesOut : List MessageC
deriving Repr

/-- `DEFAULT_SESSION_GAP_MS` (constants.ts): 45 minutes. -/
def DEFAULT_SESSION_GAP_MS : Int := 2700000

/-- `computeMetrics` (metrics.computer 37-547), embedded over the
components the claims mention. -/
def computeMetrics (msgs : List MessageC) (sessionGapMs : Int) : MetricsE :=
  let st := msgs.foldl (metricsStep sessionGapMs)
    { totals := zeroTotals, byUser := [], done := [], cur := none, out := [] }
  { totals := st.totals, byUser := st.byUser,
    sessions := st.done ++ st.cur.toList, messagesOut := st.out }

-- =========================================================================
-- PART 11: chat merging (whatsapp.parser / chat-merger 276-314)
-- =========================================================================

/-- A pipeline `ParsedChat` over millisecond-timestamp messages. -/
structure ParsedChatC where
  messages : List MessageC
  participants : List Str
  platform : Str
  title : Option Str
deriving DecidableEq, Repr

/-- `Array.prototype.sort((a, b) => a.timestamp.getTime() -
b.timestamp.getTime())`: ECMAScript guarantees a stable permutation sorted
by the (consistent) comparator; that permutation is unique, and stable
insertion sort computes it. -/
def sortByTimestamp (l : List MessageC) : List MessageC :=
  List.insertionSort (fun a b => a.timestamp ≤ b.timestamp) l

/-- `titles.join(sep)`. -/
def joinSep (sep : Str) : List Str → Str
  | [] => []
  | [x] => x
  | x :: xs => x ++ sep ++ joinSep sep xs

/-- `mergeChats` (chat-merger 276-314): empty input gives an empty mixed
chat, a singleton passes through unchanged, otherwise messages are
concatenated and re-sorted by timestamp, participants unioned, the
platform kept when unique (else `mixed`), and non-empty titles joined. -/
def mergeChats : List ParsedChatC → ParsedChatC
  | [] => { messages := [], participants := [], platform := str "mixed", title := none }
  | [c] => c
  | chats =>
    let allMessages := sortByTimestamp (chats.map (fun c => c.messages)).flatten
    let allParticipants := chats.foldl (fun acc c => c.participants.foldl addSet acc) []
    let platforms := chats.foldl (fun acc c => addSet acc c.platform) []
    let platform := match platforms with
      | [p] => p
      | _ => str "mixed"
    let titles := chats.filterMap (fun c =>
      match c.title with
      | some t => if t = [] then none else some t
      | none => none)
    let title := if titles = [] then none else some (joinSep (str " + ") titles)
    { messages := allMessages, participants := allParticipants,
      platform := platform, title := title }

-- =========================================================================
-- PART 12: Android Messages parser (android-messages.parser)
-- =========================================================================

/-- `String.fromCharCode`: the argument is reduced modulo 2^16 (ToUint16).
Values landing on unpaired surrogates are outside this model (no theorem
here evaluates one). -/
def fromCharCode (n : Nat) : Char := Char.ofNat (n % 65536)

/-- Numeric value of a digit string. -/
def natOfDigits (s : Str) : Nat := s.foldl (fun a c => a * 10 + digVal c) 0

/-- Global replacement of `/&#(\d+);/g` by
`String.fromCharCode(parseInt(dec, 10))` (android-messages.parser 123-125
and 173-175). -/
def decodeEntitiesAux : Nat → Str → Str
  | 0, s => s
  | fuel + 1, s =>
    match s with
    | [] => []
    | c :: rest =>
      if c = '&' then
        match rest with
        | d :: r2 =>
          if d = '#' then
            let digs := r2.takeWhile isDig
            if digs = [] then c :: decodeEntitiesAux fuel rest
            else
              match r2.drop digs.length with
              | e :: r3 =>
                if e = ';' then fromCharCode (natOfDigits digs) :: decodeEntitiesAux fuel r3
                else c :: decodeEntitiesAux fuel rest
              | [] => c :: decodeEntitiesAux fuel rest
          else c :: decodeEntitiesAux fuel rest
        | [] => [c]
      else c :: decodeEntitiesAux fuel rest

/-- The HTML-entity decoding applied to SMS bodies and charset-106 MMS
text parts. -/
def decodeHtmlEntities (s : Str) : Str := decodeEntitiesAux s.length s

/-- An `<sms>` element, reduced to the attributes the parser reads
(`parseInt(sms.date)` is modelled as the already-parsed integer; `type` is
a Lean keyword, hence `type'`). -/
structure SmsEl where
  date : Int
  type' : Option Str
  contact_name : Option Str
  body : Option Str
deriving DecidableEq, Repr

/-- A `<part>` element of an MMS (`chset` already parsed, `none` for a
missing or non-numeric attribute, which compares unequal to 106 and 3). -/
structure PartEl where
  ct : Option Str
  chset : Option Int
  text : Option Str
deriving DecidableEq, Repr

/-- An `<mms>` element, reduced to the attributes the parser reads. -/
structure MmsEl where
  date : Int
  msg_box : Option Str
  contact_name : Option Str
  parts : Option (List PartEl)
deriving DecidableEq, Repr

/-- The parsed `<smses>` root: optional `sms` and `mms` collections
(`xml2js` yields one object or an array; both are modelled as a list). -/
structure SmsesEl where
  sms : Option (List SmsEl)
  mms : Option (List MmsEl)
deriving DecidableEq, Repr

/-- An XML document as seen after `parseStringPromise`: the root `smses`
element is present or absent. -/
structure AndroidDoc where
  smses : Option SmsesEl
deriving DecidableEq, Repr

/-- `processSMSMessage` (android-messages.parser 104-140). -/
def processSMSMessage (sms : SmsEl) : Option MessageC :=
  let sender : Option Str :=
    if sms.type' = some (str "1") then
      match sms.contact_name with
      | some cn => if cn = [] then none else some (normaliseParticipantName cn)
      | none => none
    else none
  let messageText := decodeHtmlEntities (sms.body.getD [])
  let mediaType := getMediaType messageText
  some { timestamp := sms.date, from' := sender,
         text := stripControlMarks messageText, isSystem := false,
         isMediaNotice := mediaType.isSome, mediaType := mediaType,
         platform := str "android_messages" }

/-- `processMMSMessage` (android-messages.parser 145-232). -/
def processMMSMessage (mms : MmsEl) : Option MessageC :=
  let sender : Option Str :=
    if mms.msg_box = some (str "1") then
      match mms.contact_name with
      | some cn => if cn = [] then none else some (normaliseParticipantName cn)
      | none => none
    else none
  let messageText :=
    match mms.parts with
    | some parts =>
      parts.foldl (fun acc p =>
        if p.ct = some (str "text/plain") ∧ p.text.getD [] ≠ [] then
          let partText := p.text.getD []
          acc ++ (if p.chset = some 106 then decodeHtmlEntities partText else partText)
        else acc) []
    | none => []
  if jsTrim messageText = [] then
    match mms.parts with
    | some parts =>
      let mediaParts := parts.filter (fun p =>
        match p.ct with
        | some c => c ≠ [] ∧ c ≠ str "text/plain"
        | none => false)
      if mediaParts = [] then none
      else
        let mediaTypes := mediaParts.map (fun p =>
          let c := p.ct.getD []
          if strContains c (str "image") then str "image"
          else if strContains c (str "video") then str "video"
          else if strContains c (str "audio") then str "audio"
          else str "media")
        let senderName := match sender with
          | some s => if s = [] then str "Unknown" else s
          | none => str "Unknown"
        some { timestamp := mms.date, from' := sender,
               text := senderName ++ str " sent " ++ joinSep (str ", ") mediaTypes,
               isSystem := false, isMediaNotice := true,
               mediaType := mediaTypes.head?,
               platform := str "android_messages" }
    | none => none
  else
    let mediaType := getMediaType messageText
    some { timestamp := mms.date, from' := sender,
           text := stripControlMarks messageText, isSystem := false,
           isMediaNotice := mediaType.isSome, mediaType := mediaType,
           platform := str "android_messages" }

/-- `parseAndroidMessages` (android-messages.parser 237-295): fail when
the root `smses` element is missing, otherwise process every SMS and MMS,
dropping the ones whose processor returns null, collect named senders,
and sort by timestamp. -/
def parseAndroidMessages (doc : AndroidDoc) (title : Option Str) :
    Except Str ParsedChatC :=
  match doc.smses with
  | none => .error (str "Invalid Android Messages XML format: missing smses element")
  | some smses =>
    let msgs := (smses.sms.getD []).filterMap processSMSMessage ++
                (smses.mms.getD []).filterMap processMMSMessage
    let participants := msgs.foldl (fun acc m =>
      match m.from' with
      | some f => if f = [] then acc else addSet acc f
      | none => acc) []
    .ok { messages := sortByTimestamp msgs, participants := participants,
          platform := str "android_messages", title := title }

-- =========================================================================
-- PART 13: shared lemmas
-- =========================================================================

/-- Sum of the `byUser` counters over the association list. -/
def sumUsers (l : List (Str × Totals)) : Totals :=
  l.foldr (fun p acc => bump p.2 acc) zeroTotals

theorem bump_assoc (a b c : Totals) : bump (bump a b) c = bump a (bump b c) := by
  simp [bump, Nat.add_assoc]

theorem sumUsers_upsert (l : List (Str × Totals)) (k : Str) (d : Totals) :
    sumUsers (upsertUser l k d) = bump (sumUsers l) d := by
  induction l with
  | nil => simp [sumUsers, upsertUser, bump, zeroTotals]
  | cons p rest ih =>
    by_cases h : p.1 = k
    · simp [sumUsers, upsertUser, h, bump, Nat.add_right_comm, Nat.add_assoc,
        Nat.add_comm]
    · cases p with
      | mk k0 t =>
        show sumUsers (if k0 = k then (k0, bump t d) :: rest
          else (k0, t) :: upsertUser rest k d) = _
        rw [if_neg h]
        show bump t (sumUsers (upsertUser rest k d)) = bump (bump t (sumUsers rest)) d
        rw [ih, bump_assoc]

/-- Invariant of the metrics fold: the running totals always equal the sum
over `byUser` (each message adds the same `msgDelta` to both sides). -/
theorem metricsFold_totals_eq_sumUsers (gap : Int) (msgs : List MessageC) :
    ∀ st : MState, st.totals = sumUsers st.byUser →
      (msgs.foldl (metricsStep gap) st).totals =
        sumUsers (msgs.foldl (metricsStep gap) st).byUser := by
  induction msgs with
  | nil => intro st h; simpa using h
  | cons m rest ih =>
    intro st h
    simp only [List.foldl]
    apply ih
    simp [metricsStep, sumUsers_upsert, h]

theorem sumUsers_cons (p : Str × Totals) (l : List (Str × Totals)) :
    sumUsers (p :: l) = bump p.2 (sumUsers l) := rfl

theorem sumUsers_messages (l : List (Str × Totals)) :
    (sumUsers l).messages = (l.map (fun p => p.2.messages)).sum := by
  induction l with
  | nil => rfl
  | cons p rest ih => simp [sumUsers_cons, bump, ih]

theorem sumUsers_words (l : List (Str × Totals)) :
    (sumUsers l).words = (l.map (fun p => p.2.words)).sum := by
  induction l with
  | nil => rfl
  | cons p rest ih => simp [sumUsers_cons, bump, ih]

theorem sumUsers_characters (l : List (Str × Totals)) :
    (sumUsers l).characters = (l.map (fun p => p.2.characters)).sum := by
  induction l with
  | nil => rfl
  | cons p rest ih => simp [sumUsers_cons, bump, ih]

theorem sumUsers_emojis (l : List (Str × Totals)) :
    (sumUsers l).emojis = (l.map (fun p => p.2.emojis)).sum := by
  induction l with
  | nil => rfl
  | cons p rest ih => simp [sumUsers_cons, bump, ih]

theorem sumUsers_mediaNotices (l : List (Str × Totals)) :
    (sumUsers l).mediaNotices = (l.map (fun p => p.2.mediaNotices)).sum := by
  induction l with
  | nil => rfl
  | cons p rest ih => simp [sumUsers_cons, bump, ih]

theorem sumUsers_links (l : List (Str × Totals)) :
    (sumUsers l).links = (l.map (fun p => p.2.links)).sum := by
  induction l with
  | nil => rfl
  | cons p rest ih => simp [sumUsers_cons, bump, ih]

/-- The write-back component of the metrics fold: the input messages with
the `from` rewrite applied, in order. -/
theorem metricsFold_out (gap : Int) (msgs : List MessageC) :
    ∀ st : MState,
      (msgs.foldl (metricsStep gap) st).out = st.out ++ msgs.map rewriteFrom := by
  induction msgs with
  | nil => intro st; simp
  | cons m rest ih =>
    intro st
    simp only [List.foldl]
    rw [ih]
    simp [metricsStep]

/-- Totals of an appended message decompose through `msgDelta`. -/
theorem computeMetrics_totals_append (msgs : List MessageC) (m : MessageC) (gap : Int) :
    (computeMetrics (msgs ++ [m]) gap).totals =
      bump (computeMetrics msgs gap).totals (msgDelta m) := by
  simp [computeMetrics, List.foldl_append, metricsStep]

/-- A media notice has empty visible text, so it contributes exactly one
message and one media notice and nothing else. -/
theorem msgDelta_media (m : MessageC) (h : m.isMediaNotice = true) :
    msgDelta m = { messages := 1, words := 0, characters := 0, emojis := 0,
                   mediaNotices := 1, links := 0 } := by
  simp [msgDelta, visibleTextOf, h, tokeniseWords, tokensAux, jsToLower,
    countEmojis, countEmojisFrom, splitGraphemes, linkCount, linkCountAux]

instance : IsTotal MessageC (fun a b => a.timestamp ≤ b.timestamp) :=
  ⟨fun a b => Int.le_total a.timestamp b.timestamp⟩

instance : IsTrans MessageC (fun a b => a.timestamp ≤ b.timestamp) :=
  ⟨fun _ _ _ h1 h2 => le_trans h1 h2⟩

/-- The JS sort by timestamp yields adjacently nondecreasing timestamps. -/
theorem sortByTimestamp_chain (l : List MessageC) :
    List.Chain' (fun a b => a.timestamp ≤ b.timestamp) (sortByTimestamp l) :=
  (List.sorted_insertionSort _ l).chain'

-- =========================================================================
-- PART 14: session machinery for the coverage claim
-- =========================================================================

/-- Membership of a message timestamp in a session interval
(the claim's "timestamp falls within [start, end]"). -/
def inSess (s : SessionE) (m : MessageC) : Prop :=
  s.start ≤ m.timestamp ∧ m.timestamp ≤ s.stop

instance (s : SessionE) (m : MessageC) : Decidable (inSess s m) := by
  unfold inSess; infer_instance

/-- The session component of the metrics loop, as its own fold. -/
def sessFold (gap : Int) (msgs : List MessageC)
    (dc : List SessionE × Option SessionE) : List SessionE × Option SessionE :=
  msgs.foldl (sessStep gap) dc

/-- The metrics fold computes exactly `sessFold` in its session component. -/
theorem metricsFold_sessions (gap : Int) (msgs : List MessageC) :
    ∀ st : MState,
      ((msgs.foldl (metricsStep gap) st).done, (msgs.foldl (metricsStep gap) st).cur) =
        sessFold gap msgs (st.done, st.cur) := by
  induction msgs with
  | nil => intro st; rfl
  | cons m rest ih =>
    intro st
    simp only [List.foldl, sessFold]
    rw [ih]
    rfl

/-- Invariant carried over the processed prefix `past`: the closed
sessions `d` plus the open session `c` partition `past` by count, each
session counts exactly the past messages inside its interval, all past
timestamps are bounded by the open end, closed sessions end strictly
before the open session starts, and intervals are well-formed. -/
def SessInv (past : List MessageC) (d : List SessionE) (c : SessionE) : Prop :=
  (((d ++ [c]).map SessionE.count).sum = past.length) ∧
  (∀ s ∈ d ++ [c], s.count = past.countP (fun m => decide (inSess s m))) ∧
  (∀ m ∈ past, m.timestamp ≤ c.stop) ∧
  (∀ s ∈ d, s.stop < c.start) ∧
  (∀ s ∈ d ++ [c], s.start ≤ s.stop)

theorem sessInv_step (gap : Int) (hgap : 0 < gap) (past : List MessageC)
    (d : List SessionE) (c : SessionE) (m : MessageC)
    (hm : c.stop ≤ m.timestamp) (hinv : SessInv past d c) :
    ∃ d2 c2, sessStep gap (d, some c) m = (d2, some c2) ∧
      SessInv (past ++ [m]) d2 c2 ∧ c2.stop = m.timestamp := by
  obtain ⟨hA, hB, hC, hD, hE⟩ := hinv
  have hcs : c.start ≤ c.stop := hE c (by simp)
  by_cases hle : m.timestamp - c.stop ≤ gap
  · -- extend the open session
    refine ⟨d, ⟨c.start, m.timestamp, c.count + 1⟩, ?_, ⟨?_, ?_, ?_, ?_, ?_⟩, rfl⟩
    · simp [sessStep, hle]
    · -- A
      simp only [List.map_append, List.sum_append, List.map_cons, List.map_nil,
        List.sum_cons, List.sum_nil, List.length_append, List.length_singleton] at hA ⊢
      omega
    · -- B
      intro s hs
      rcases List.mem_append.mp hs with hsd | hsc
      · have hnot : ¬ inSess s m := by
          intro hin
          have h3 : s.stop < c.start := hD s hsd
          have h2 := hin.2
          simp only at h2
          omega
        rw [List.countP_append]
        have := hB s (List.mem_append.mpr (Or.inl hsd))
        simp [this, List.countP_cons, hnot]
      · simp only [List.mem_singleton] at hsc
        subst hsc
        rw [List.countP_append]
        have hcong :
            past.countP (fun x => decide (inSess ⟨c.start, m.timestamp, c.count + 1⟩ x)) =
              past.countP (fun x => decide (inSess c x)) := by
          apply List.countP_congr
          intro p hp
          have hpc : p.timestamp ≤ c.stop := hC p hp
          simp only [decide_eq_true_eq, inSess]
          constructor
          · rintro ⟨h1, _⟩; exact ⟨h1, hpc⟩
          · rintro ⟨h1, _⟩; exact ⟨h1, le_trans hpc hm⟩
        have hin : inSess ⟨c.start, m.timestamp, c.count + 1⟩ m :=
          ⟨le_trans hcs hm, le_refl _⟩
        rw [hcong, ← hB c (List.mem_append.mpr (Or.inr (by simp)))]
        simp [List.countP_cons, hin]
    · -- C
      intro p hp
      rcases List.mem_append.mp hp with h | h
      · exact le_trans (hC p h) hm
      · simp only [List.mem_singleton] at h; subst h; exact le_refl _
    · -- D
      exact hD
    · -- E
      intro s hs
      rcases List.mem_append.mp hs with h | h
      · exact hE s (List.mem_append.mpr (Or.inl h))
      · simp only [List.mem_singleton] at h; subst h
        exact le_trans hcs hm
  · -- close the session and open a new one
    have hlt : c.stop < m.timestamp := by omega
    refine ⟨d ++ [c], ⟨m.timestamp, m.timestamp, 1⟩, ?_, ⟨?_, ?_, ?_, ?_, ?_⟩, rfl⟩
    · simp [sessStep, hle]
    · -- A
      simp only [List.map_append, List.sum_append, List.map_cons, List.map_nil,
        List.sum_cons, List.sum_nil, List.length_append, List.length_singleton] at hA ⊢
      omega
    · -- B
      intro s hs
      rcases List.mem_append.mp hs with hsd | hsc
      · have hstop : s.stop < m.timestamp := by
          rcases List.mem_append.mp hsd with h | h
          · have := hD s h; omega
          · simp only [List.mem_singleton] at h; subst h; exact hlt
        have hnot : ¬ inSess s m := by
          intro hin
          have h2 := hin.2
          omega
        rw [List.countP_append]
        have := hB s hsd
        simp [this, List.countP_cons, hnot]
      · simp only [List.mem_singleton] at hsc
        subst hsc
        rw [List.countP_append]
        have hzero :
            past.countP (fun x => decide (inSess ⟨m.timestamp, m.timestamp, 1⟩ x)) = 0 := by
          rw [List.countP_eq_zero]
          intro p hp
          have := hC p hp
          simp only [decide_eq_true_eq, inSess]
          intro hin
          have h1 := hin.1
          simp only at h1
          omega
        have hin : inSess ⟨m.timestamp, m.timestamp, 1⟩ m := ⟨le_refl _, le_refl _⟩
        simp [hzero, List.countP_cons, hin]
    · -- C
      intro p hp
      rcases List.mem_append.mp hp with h | h
      · exact le_of_lt (lt_of_le_of_lt (hC p h) hlt)
      · simp only [List.mem_singleton] at h; subst h; exact le_refl _
    · -- D
      intro s hs
      show s.stop < m.timestamp
      rcases List.mem_append.mp hs with h | h
      · have := hD s h; omega
      · simp only [List.mem_singleton] at h; subst h; exact hlt
    · -- E
      intro s hs
      rcases List.mem_append.mp hs with h | h
      · exact hE s h
      · simp only [List.mem_singleton] at h; subst h; exact le_refl _

theorem sessFold_inv (gap : Int) (hgap : 0 < gap) :
    ∀ (msgs past : List MessageC) (d : List SessionE) (c : SessionE),
      msgs.Pairwise (fun a b => a.timestamp ≤ b.timestamp) →
      (∀ x ∈ msgs, c.stop ≤ x.timestamp) →
      SessInv past d c →
      ∃ d2 c2, sessFold gap msgs (d, some c) = (d2, some c2) ∧
        SessInv (past ++ msgs) d2 c2 := by
  intro msgs
  induction msgs with
  | nil =>
    intro past d c _ _ hinv
    exact ⟨d, c, rfl, by simpa using hinv⟩
  | cons m rest ih =>
    intro past d c hpw hge hinv
    have hm : c.stop ≤ m.timestamp := hge m (by simp)
    obtain ⟨d1, c1, hstep, hinv1, hstop⟩ :=
      sessInv_step gap hgap past d c m hm hinv
    have hpw' := (List.pairwise_cons.mp hpw).2
    have hhead := (List.pairwise_cons.mp hpw).1
    obtain ⟨d2, c2, hfold, hinv2⟩ :=
      ih (past ++ [m]) d1 c1 hpw'
        (fun x hx => hstop ▸ hhead x hx) hinv1
    refine ⟨d2, c2, ?_, ?_⟩
    · show sessFold gap (m :: rest) (d, some c) = _
      simp only [sessFold, List.foldl]
      rw [show sessStep gap (d, some c) m = (d1, some c1) from hstep]
      exact hfold
    · rwa [List.append_assoc, List.singleton_append] at hinv2

-- =========================================================================
-- PART 15: concrete inputs used by witnesses and counterexamples
-- =========================================================================

/-- An arbitrary wall-clock value for `parseWhatsApp`'s fallback. -/
def nowEpoch : DateParts :=
  { year := 1970, month := 0, day := 1, hour := 0, minute := 0, second := 0 }

/-- Two WhatsApp lines whose timestamps appear in descending order. -/
def ceInput : Str :=
  str "[16/3/2024, 9:05:30 PM] Alice: one" ++ [Char.ofNat 10] ++
  str "[15/3/2024, 9:05:30 PM] Alice: two"

/-- The first message `parseWhatsApp` produces from `ceInput`. -/
def ceMsg16 : MessageW :=
  { timestamp := { year := 2024, month := 2, day := 16, hour := 21, minute := 5, second := 30 },
    from' := some (str "Alice"), text := str "one",
    isSystem := false, isMediaNotice := false, mediaType := none }

/-- The second message `parseWhatsApp` produces from `ceInput`. -/
def ceMsg15 : MessageW :=
  { timestamp := { year := 2024, month := 2, day := 15, hour := 21, minute := 5, second := 30 },
    from' := some (str "Alice"), text := str "two",
    isSystem := false, isMediaNotice := false, mediaType := none }

/-- The single message the round-trip line parses to. -/
def msgW1 : MessageW :=
  { timestamp := { year := 2024, month := 2, day := 15, hour := 21, minute := 5, second := 30 },
    from' := some (str "Alice"), text := str "hello",
    isSystem := false, isMediaNotice := false, mediaType := none }

/-- A received SMS whose body is a single supplementary-plane entity. -/
def smsEmoji : SmsEl :=
  { date := 0, type' := some (str "1"),
    contact_name := some (str "Bob"), body := some (str "&#128557;") }

/-- A message whose sender name carries a double space, so that
`normaliseParticipantName` changes it. -/
def dirtyMsg : MessageC :=
  { timestamp := 0, from' := some (str "Alice  B"), text := str "hi",
    isSystem := false, isMediaNotice := false, mediaType := none,
    platform := str "whatsapp" }

/-- A WhatsApp media-notice message. -/
def mediaMsg : MessageC :=
  { timestamp := 0, from' := some (str "Bob"), text := str "image omitted",
    isSystem := false, isMediaNotice := true, mediaType := some (str "image"),
    platform := str "whatsapp" }

/-- Two messages separated by more than the default session gap. -/
def sessMsgA : MessageC :=
  { timestamp := 0, from' := some (str "Ann"), text := str "a",
    isSystem := false, isMediaNotice := false, mediaType := none,
    platform := str "whatsapp" }

/-- Second session message, 50 minutes after the first. -/
def sessMsgB : MessageC :=
  { timestamp := 3000000, from' := some (str "Ben"), text := str "b",
    isSystem := false, isMediaNotice := false, mediaType := none,
    platform := str "whatsapp" }

/-- A chat used by the merge witness (later timestamp). -/
def wchatA : ParsedChatC :=
  { messages := [{ timestamp := 5, from' := some (str "Ann"), text := str "x",
                   isSystem := false, isMediaNotice := false, mediaType := none,
                   platform := str "whatsapp" }],
    participants := [str "Ann"], platform := str "whatsapp", title := none }

/-- A chat used by the merge witness (earlier timestamp). -/
def wchatB : ParsedChatC :=
  { messages := [{ timestamp := 3, from' := some (str "Ben"), text := str "y",
                   isSystem := false, isMediaNotice := false, mediaType := none,
                   platform := str "whatsapp" }],
    participants := [str "Ben"], platform := str "whatsapp", title := none }

/-- A well-formed single-SMS Android document. -/
def adocW : AndroidDoc :=
  { smses := some { sms := some [{ date := 7, type' := some (str "1"),
                                   contact_name := some (str "Zoe"),
                                   body := some (str "yo") }],
                    mms := none } }

/-- The chat `parseAndroidMessages` produces from `adocW`. -/
def adChatW : ParsedChatC :=
  { messages := [{ timestamp := 7, from' := some (str "Zoe"), text := str "yo",
                   isSystem := false, isMediaNotice := false, mediaType := none,
                   platform := str "android_messages" }],
    participants := [str "Zoe"], platform := str "android_messages", title := none }

/-- An Android document with no root element. -/
def docMissing : AndroidDoc := { smses := none }

/-- An MMS from which no text or media part can be extracted. -/
def badMms : MmsEl := { date := 0, msg_box := none, contact_name := none, parts := none }

/-- A string consisting of one emoji code point (U+1F600). -/
def emojiGrin : Str := [Char.ofNat 0x1F600]

-- =========================================================================
-- PART 16: the claims
-- =========================================================================

/-- C1 (amended): `mergeChats` applied to two or more chats, and
`parseAndroidMessages`, always produce messages in ascending timestamp
order (`messages[i].timestamp ≤ messages[i+1].timestamp`), because both
sort explicitly; `parseWhatsApp` emits messages in input-line order and
does not sort, so its output need not be ascending. -/
theorem C1_merge_android_sorted :
    (∀ chats : List ParsedChatC, 2 ≤ chats.length →
       List.Chain' (fun a b => a.timestamp ≤ b.timestamp) (mergeChats chats).messages) ∧
    (∀ (doc : AndroidDoc) (t : Option Str) (c : ParsedChatC),
       parseAndroidMessages doc t = Except.ok c →
       List.Chain' (fun a b => a.timestamp ≤ b.timestamp) c.messages) := by
  constructor
  · intro chats h
    match chats with
    | [] => simp at h
    | [c] => simp at h
    | a :: b :: rest =>
      show List.Chain' _ (sortByTimestamp _)
      exact sortByTimestamp_chain _
  · intro doc t c h
    match hd : doc.smses with
    | none => simp [parseAndroidMessages, hd] at h
    | some smses =>
      simp only [parseAndroidMessages, hd] at h
      cases h
      exact sortByTimestamp_chain _

/-- C1 witness: the sortedness theorem applied to a concrete two-chat
merge and a concrete Android document. -/
theorem C1_merge_android_sorted_witness :
    2 ≤ ([wchatA, wchatB] : List ParsedChatC).length ∧
    List.Chain' (fun a b => a.timestamp ≤ b.timestamp)
      (mergeChats [wchatA, wchatB]).messages ∧
    parseAndroidMessages adocW none = Except.ok adChatW ∧
    List.Chain' (fun a b => a.timestamp ≤ b.timestamp) adChatW.messages :=
  ⟨by decide,
   C1_merge_android_sorted.1 [wchatA, wchatB] (by decide),
   by rfl,
   C1_merge_android_sorted.2 adocW none adChatW (by rfl)⟩

/-- C1 counterexample: `parseWhatsApp` on two lines whose timestamps
descend produces messages that are not in ascending timestamp order, so
the ordering invariant fails for `parseWhatsApp` as stated. -/
theorem C1_parseWhatsApp_descending_counterexample :
    ¬ List.Chain' (fun a b => dateMs a.timestamp ≤ dateMs b.timestamp)
      (parseWhatsApp ceInput nowEpoch).messages := by
  have hm : (parseWhatsApp ceInput nowEpoch).messages = [ceMsg16, ceMsg15] := by rfl
  rw [hm]
  simp only [List.chain'_cons, List.chain'_singleton, and_true]
  decide

/-- C2: in every computed `Metrics`, each of the six numeric `totals`
fields (messages, words, characters, emojis, mediaNotices, links) equals
the sum of the corresponding field over all `byUser` entries (the
`__system__` bucket is an ordinary entry of `byUser` and is included). -/
theorem C2_totals_match_byUser_sums (msgs : List MessageC) (gap : Int) :
    (computeMetrics msgs gap).totals.messages
        = ((computeMetrics msgs gap).byUser.map (fun p => p.2.messages)).sum ∧
    (computeMetrics msgs gap).totals.words
        = ((computeMetrics msgs gap).byUser.map (fun p => p.2.words)).sum ∧
    (computeMetrics msgs gap).totals.characters
        = ((computeMetrics msgs gap).byUser.map (fun p => p.2.characters)).sum ∧
    (computeMetrics msgs gap).totals.emojis
        = ((computeMetrics msgs gap).byUser.map (fun p => p.2.emojis)).sum ∧
    (computeMetrics msgs gap).totals.mediaNotices
        = ((computeMetrics msgs gap).byUser.map (fun p => p.2.mediaNotices)).sum ∧
    (computeMetrics msgs gap).totals.links
        = ((computeMetrics msgs gap).byUser.map (fun p => p.2.links)).sum := by
  have h := metricsFold_totals_eq_sumUsers gap msgs
    { totals := zeroTotals, byUser := [], done := [], cur := none, out := [] }
    (by simp [sumUsers, zeroTotals])
  simp only [computeMetrics]
  rw [h]
  exact ⟨sumUsers_messages _, sumUsers_words _, sumUsers_characters _,
    sumUsers_emojis _, sumUsers_mediaNotices _, sumUsers_links _⟩

/-- C3 (amended): `computeMetrics` does write into its input: the loop
rewrites each message's `from` field in place to
`normaliseParticipantName(from)` (a no-op exactly when the name is
already normalised); it performs no other write to the chat, so
timestamps, texts, flags, participants, platform and title are unchanged.
Identity-normalisation rewrites (`normaliseParticipantNames`) build new
chats with spread copies and leave their input untouched. -/
theorem C3_computeMetrics_writes_only_from (msgs : List MessageC) (gap : Int) :
    (computeMetrics msgs gap).messagesOut =
      msgs.map (fun m => { m with from' := m.from'.map normaliseParticipantName }) := by
  have h := metricsFold_out gap msgs
    { totals := zeroTotals, byUser := [], done := [], cur := none, out := [] }
  simp only [computeMetrics]
  rw [h]
  simp only [List.nil_append]
  apply List.map_congr_left
  intro m _
  cases hm : m.from' with
  | none => cases m; simp_all [rewriteFrom]
  | some f =>
    by_cases hf : f = []
    · subst hf
      cases m
      simp_all [rewriteFrom, normaliseParticipantName, collapseWs, jsTrim,
        jsTrimStart, jsTrimEnd]
    · cases m; simp_all [rewriteFrom]

/-- C3 counterexample: on a chat whose sender name contains a double
space, `computeMetrics` leaves behind a message array different from its
input — the `ParsedChat` is mutated in place, contradicting the claim
that pipeline stages never mutate. -/
theorem C3_computeMetrics_mutates_counterexample :
    (computeMetrics [dirtyMsg] DEFAULT_SESSION_GAP_MS).messagesOut ≠ [dirtyMsg] := by
  decide

/-- C4: evidence for the entity-decoding bug. `&#128557;` (U+1F62D) is
decoded through `String.fromCharCode`, which truncates modulo 2^16, so
the SMS text becomes the single character U+F62D, not U+1F62D as the
spec and the code comment intend. -/
theorem C4_entity_decode_truncates :
    decodeHtmlEntities (str "&#128557;") = [fromCharCode 128557] ∧
    fromCharCode 128557 = Char.ofNat 0xF62D ∧
    Char.ofNat 0xF62D ≠ Char.ofNat 0x1F62D ∧
    (processSMSMessage smsEmoji).map (fun m => m.text) = some [Char.ofNat 0xF62D] :=
  ⟨by decide, by decide, by decide, by decide⟩

/-- C5: for a timestamp-sorted chat and a positive session gap (the
default is 45 minutes), the sessions computed by `computeMetrics` cover
every message exactly once — the session counts sum to the number of
messages — and each session's count equals the number of input messages
whose timestamp falls within that session's `[start, end]` interval.
(The boundary rule itself — new session iff no open session or gap
exceeded — is the definition of `sessStep`, embedded from the source.) -/
theorem C5_session_coverage (msgs : List MessageC) (gap : Int) (hgap : 0 < gap)
    (hsorted : List.Chain' (fun a b => a.timestamp ≤ b.timestamp) msgs) :
    (((computeMetrics msgs gap).sessions.map SessionE.count).sum = msgs.length) ∧
    ∀ s ∈ (computeMetrics msgs gap).sessions,
      s.count = msgs.countP (fun m => decide (inSess s m)) := by
  have hproj := metricsFold_sessions gap msgs
    { totals := zeroTotals, byUser := [], done := [], cur := none, out := [] }
  cases msgs with
  | nil =>
    constructor
    · simp [computeMetrics]
    · intro s hs
      simp [computeMetrics] at hs
  | cons m rest =>
    have hpw : (m :: rest).Pairwise (fun a b => a.timestamp ≤ b.timestamp) :=
      List.chain'_iff_pairwise.mp hsorted
    have hhead := (List.pairwise_cons.mp hpw).1
    have hpw' := (List.pairwise_cons.mp hpw).2
    have hinv0 : SessInv [m] [] ⟨m.timestamp, m.timestamp, 1⟩ := by
      refine ⟨by simp, ?_, by simp, by simp, by simp⟩
      intro s hs
      simp only [List.nil_append, List.mem_singleton] at hs
      subst hs
      have : inSess ⟨m.timestamp, m.timestamp, 1⟩ m := ⟨le_refl _, le_refl _⟩
      simp [List.countP_cons, this]
    obtain ⟨d2, c2, hfold, hinv⟩ :=
      sessFold_inv gap hgap rest [m] [] ⟨m.timestamp, m.timestamp, 1⟩ hpw'
        (fun x hx => hhead x hx) hinv0
    have hstep0 : sessStep gap ([], none) m = ([], some ⟨m.timestamp, m.timestamp, 1⟩) := rfl
    have h2 : sessFold gap (m :: rest) ([], none) = (d2, some c2) := by
      show List.foldl (sessStep gap) ([], none) (m :: rest) = _
      rw [List.foldl_cons, hstep0]
      exact hfold
    have h3 := hproj.trans h2
    have hsess : (computeMetrics (m :: rest) gap).sessions = d2 ++ [c2] := by
      show (List.foldl (metricsStep gap)
        { totals := zeroTotals, byUser := [], done := [], cur := none, out := [] }
        (m :: rest)).done ++
        (List.foldl (metricsStep gap)
          { totals := zeroTotals, byUser := [], done := [], cur := none, out := [] }
          (m :: rest)).cur.toList = d2 ++ [c2]
      have hdone := congrArg Prod.fst h3
      have hcur := congrArg Prod.snd h3
      simp only [Prod.fst, Prod.snd] at hdone hcur
      rw [hdone, hcur]
      rfl
    rw [hsess]
    refine ⟨by simpa using hinv.1, fun s hs => by simpa using hinv.2.1 s hs⟩

/-- C5 witness: the coverage theorem applied to a concrete two-message
chat whose gap (50 minutes) exceeds the default 45-minute session gap. -/
theorem C5_session_coverage_witness :
    (0 : Int) < DEFAULT_SESSION_GAP_MS ∧
    ((((computeMetrics [sessMsgA, sessMsgB] DEFAULT_SESSION_GAP_MS).sessions.map
        SessionE.count).sum = 2) ∧
      ∀ s ∈ (computeMetrics [sessMsgA, sessMsgB] DEFAULT_SESSION_GAP_MS).sessions,
        s.count = [sessMsgA, sessMsgB].countP (fun m => decide (inSess s m))) := by
  have hch : List.Chain' (fun a b => a.timestamp ≤ b.timestamp) [sessMsgA, sessMsgB] := by
    simp only [List.chain'_cons, List.chain'_singleton, and_true]
    decide
  exact ⟨by decide,
    C5_session_coverage [sessMsgA, sessMsgB] DEFAULT_SESSION_GAP_MS (by decide) hch⟩

/-- C6 (amended): the WhatsApp date parser resolves the two ambiguous
fields as follows — when both are at most 12 it prefers DD/MM (day is the
first field, zero-indexed month is the second minus one); when exactly
one exceeds 12 that one becomes the day regardless of position; when both
exceed 12 the first field becomes the day (not the larger one, which the
original claim asserted). Two-digit years become `2000 + YY`; `12 AM`
maps to hour 0, `12 PM` stays 12, and PM adds 12 to hours 1-11. -/
theorem C6_parseDateParts_rules (d m y h mi : Int) (s : Option Int) (ap : Option Str) :
    (d ≤ 12 → m ≤ 12 →
      (parseDateParts d m y h mi s ap).day = d ∧
      (parseDateParts d m y h mi s ap).month = m - 1) ∧
    (12 < d → m ≤ 12 →
      (parseDateParts d m y h mi s ap).day = d ∧
      (parseDateParts d m y h mi s ap).month = m - 1) ∧
    (d ≤ 12 → 12 < m →
      (parseDateParts d m y h mi s ap).day = m ∧
      (parseDateParts d m y h mi s ap).month = d - 1) ∧
    (12 < d → 12 < m →
      (parseDateParts d m y h mi s ap).day = d ∧
      (parseDateParts d m y h mi s ap).month = m - 1) ∧
    (0 ≤ y → y < 100 → (parseDateParts d m y h mi s ap).year = 2000 + y) ∧
    (∀ a, ap = some a → jsToLower a = str "pm" → 1 ≤ h → h ≤ 11 →
      (parseDateParts d m y h mi s ap).hour = h + 12) ∧
    (∀ a, ap = some a → jsToLower a = str "pm" → h = 12 →
      (parseDateParts d m y h mi s ap).hour = 12) ∧
    (∀ a, ap = some a → jsToLower a = str "am" → h = 12 →
      (parseDateParts d m y h mi s ap).hour = 0) ∧
    (∀ a, ap = some a → jsToLower a = str "am" → 1 ≤ h → h ≤ 11 →
      (parseDateParts d m y h mi s ap).hour = h) := by
  refine ⟨?_, ?_, ?_, ?_, ?_, ?_, ?_, ?_, ?_⟩
  · intro h1 h2
    simp only [parseDateParts]
    constructor <;> split_ifs <;> simp_all <;> omega
  · intro h1 h2
    simp only [parseDateParts]
    constructor <;> split_ifs <;> simp_all <;> omega
  · intro h1 h2
    simp only [parseDateParts]
    constructor <;> split_ifs <;> simp_all <;> omega
  · intro h1 h2
    simp only [parseDateParts]
    constructor <;> split_ifs <;> simp_all <;> omega
  · intro h1 h2
    simp only [parseDateParts]
    split_ifs <;> simp_all <;> omega
  · intro a hap hlow h1 h2
    subst hap
    simp only [parseDateParts, hlow]
    simp only [show (str "pm" = str "pm") = True by simp, true_and]
    split_ifs <;> simp_all <;> omega
  · intro a hap hlow h1
    subst hap h1
    simp only [parseDateParts, hlow]
    simp [show ¬(str "pm" = str "am") from by decide]
  · intro a hap hlow h1
    subst hap h1
    simp only [parseDateParts, hlow]
    simp [show ¬(str "am" = str "pm") from by decide]
  · intro a hap hlow h1 h2
    subst hap
    simp only [parseDateParts, hlow]
    simp [show ¬(str "am" = str "pm") from by decide]
    omega

/-- C6 witness: the rules applied at the claim's own examples — `(3, 4)`
resolves to day 3 / zero-indexed month 3, `(13, 4)` to day 13 /
zero-indexed month 3, a two-digit year widens, and 9 PM becomes 21. -/
theorem C6_parseDateParts_rules_witness :
    ((parseDateParts 3 4 24 9 5 (some 30) (some (str "PM"))).day = 3 ∧
     (parseDateParts 3 4 24 9 5 (some 30) (some (str "PM"))).month = 3) ∧
    ((parseDateParts 13 4 24 9 5 (some 30) (some (str "PM"))).day = 13 ∧
     (parseDateParts 13 4 24 9 5 (some 30) (some (str "PM"))).month = 3) ∧
    (parseDateParts 3 4 24 9 5 (some 30) (some (str "PM"))).year = 2024 ∧
    (parseDateParts 3 4 24 9 5 (some 30) (some (str "PM"))).hour = 21 :=
  ⟨(C6_parseDateParts_rules 3 4 24 9 5 (some 30) (some (str "PM"))).1
      (by decide) (by decide),
   (C6_parseDateParts_rules 13 4 24 9 5 (some 30) (some (str "PM"))).2.1
      (by decide) (by decide),
   (C6_parseDateParts_rules 3 4 24 9 5 (some 30) (some (str "PM"))).2.2.2.2.1
      (by decide) (by decide),
   (C6_parseDateParts_rules 3 4 24 9 5 (some 30) (some (str "PM"))).2.2.2.2.2.1
      (str "PM") rfl (by decide) (by decide) (by decide)⟩

/-- C6 counterexample: at fields `(13, 14)` both values exceed 12 and the
larger is 14, yet the parser takes the *first* field 13 as the day — so
"the larger one is inferred to be the day regardless of position" fails. -/
theorem C6_larger_day_counterexample :
    12 < (13 : Int) ∧ 12 < (14 : Int) ∧ max (13 : Int) 14 = 14 ∧
    (parseDateParts 13 14 24 0 0 none none).day = 13 ∧
    (parseDateParts 13 14 24 0 0 none none).day ≠ 14 := by
  decide

/-- C7: parsing the single WhatsApp line
`"[15/3/2024, 9:05:30 PM] Alice: hello"` yields exactly one message with
sender `Alice`, text `hello`, and date components year 2024, zero-indexed
month 2, day 15, hour 21, minute 5, second 30, for any wall-clock value
(the fallback clock is never consulted on this input). -/
theorem C7_roundtrip_parse (now : DateParts) :
    (parseWhatsApp (str "[15/3/2024, 9:05:30 PM] Alice: hello") now).messages =
      [msgW1] := by
  rfl

/-- C8: appending a media-notice message to any chat leaves
`totals.characters`, `totals.words` and `totals.emojis` unchanged (its
visible text is empty) while incrementing `totals.messages` and
`totals.mediaNotices` by one. -/
theorem C8_media_notice_zero_contribution (xs : List MessageC) (m : MessageC)
    (gap : Int) (h : m.isMediaNotice = true) :
    (computeMetrics (xs ++ [m]) gap).totals.characters
        = (computeMetrics xs gap).totals.characters ∧
    (computeMetrics (xs ++ [m]) gap).totals.words
        = (computeMetrics xs gap).totals.words ∧
    (computeMetrics (xs ++ [m]) gap).totals.emojis
        = (computeMetrics xs gap).totals.emojis ∧
    (computeMetrics (xs ++ [m]) gap).totals.messages
        = (computeMetrics xs gap).totals.messages + 1 ∧
    (computeMetrics (xs ++ [m]) gap).totals.mediaNotices
        = (computeMetrics xs gap).totals.mediaNotices + 1 := by
  have ha := computeMetrics_totals_append xs m gap
  rw [msgDelta_media m h] at ha
  rw [ha]
  simp [bump]

/-- C8 witness: the exclusion theorem applied to a concrete
`image omitted` notice appended to the empty chat. -/
theorem C8_media_notice_zero_contribution_witness :
    mediaMsg.isMediaNotice = true ∧
    ((computeMetrics ([] ++ [mediaMsg]) DEFAULT_SESSION_GAP_MS).totals.characters
        = (computeMetrics [] DEFAULT_SESSION_GAP_MS).totals.characters ∧
     (computeMetrics ([] ++ [mediaMsg]) DEFAULT_SESSION_GAP_MS).totals.words
        = (computeMetrics [] DEFAULT_SESSION_GAP_MS).totals.words ∧
     (computeMetrics ([] ++ [mediaMsg]) DEFAULT_SESSION_GAP_MS).totals.emojis
        = (computeMetrics [] DEFAULT_SESSION_GAP_MS).totals.emojis ∧
     (computeMetrics ([] ++ [mediaMsg]) DEFAULT_SESSION_GAP_MS).totals.messages
        = (computeMetrics [] DEFAULT_SESSION_GAP_MS).totals.messages + 1 ∧
     (computeMetrics ([] ++ [mediaMsg]) DEFAULT_SESSION_GAP_MS).totals.mediaNotices
        = (computeMetrics [] DEFAULT_SESSION_GAP_MS).totals.mediaNotices + 1) :=
  ⟨rfl, C8_media_notice_zero_contribution [] mediaMsg DEFAULT_SESSION_GAP_MS rfl⟩

/-- C9: `parseAndroidMessages` fails, with exactly the error
`Invalid Android Messages XML format: missing smses element`, precisely
when the parsed document lacks the root `smses` element; with the root
present it always succeeds, and an individual MMS from which no text or
media part can be extracted is dropped without affecting the rest. -/
theorem C9_android_structural_error :
    (∀ (doc : AndroidDoc) (t : Option Str), doc.smses = none →
       parseAndroidMessages doc t =
         Except.error (str "Invalid Android Messages XML format: missing smses element")) ∧
    (∀ (doc : AndroidDoc) (t : Option Str) (s : SmsesEl), doc.smses = some s →
       ∃ c, parseAndroidMessages doc t = Except.ok c) ∧
    (∀ (smsL : Option (List SmsEl)) (mmsL : List MmsEl) (bad : MmsEl) (t : Option Str),
       processMMSMessage bad = none →
       parseAndroidMessages { smses := some { sms := smsL, mms := some (mmsL ++ [bad]) } } t =
         parseAndroidMessages { smses := some { sms := smsL, mms := some mmsL } } t) := by
  refine ⟨?_, ?_, ?_⟩
  · intro doc t h
    simp [parseAndroidMessages, h]
  · intro doc t s h
    obtain ⟨sm⟩ := doc
    cases h
    exact ⟨_, rfl⟩
  · intro smsL mmsL bad t h
    simp [parseAndroidMessages, List.filterMap_append, List.filterMap_cons, h]

/-- C9 witness: the structural-error theorem applied to a document with
no root element, and the drop behaviour applied to an MMS with no parts. -/
theorem C9_android_structural_error_witness :
    parseAndroidMessages docMissing none =
      Except.error (str "Invalid Android Messages XML format: missing smses element") ∧
    (∃ c, parseAndroidMessages { smses := some { sms := none, mms := some [badMms] } }
        none = Except.ok c) ∧
    parseAndroidMessages { smses := some { sms := none, mms := some [badMms] } } none =
      parseAndroidMessages { smses := some { sms := none, mms := some [] } } none :=
  ⟨C9_android_structural_error.1 docMissing none rfl,
   C9_android_structural_error.2.1 _ none _ rfl,
   C9_android_structural_error.2.2 none [] badMms none (by decide)⟩

/-- C10: evidence that `countEmojis` is not a deterministic function of
its argument — the shared `g`-flagged `EMOJI_REGEX` keeps `lastIndex`
across the `.test` calls, so a first call on a one-emoji string returns 1
and leaves `lastIndex = 2`, and an immediately repeated identical call
returns 0 (and resets the state). -/
theorem C10_countEmojis_state_dependent :
    countEmojisFrom 0 emojiGrin = (1, 2) ∧
    countEmojisFrom (countEmojisFrom 0 emojiGrin).2 emojiGrin = (0, 0) :=
  ⟨by decide, by decide⟩
